import Mathlib

/-!
Verification of the Casa Limpia chore-scheduling backend
(`Piso/backend/server.py`): the schedule generator and the schedule
store operations, embedded shallowly.

Dates are embedded as proleptic-Gregorian ordinals (days counted from
0001-01-01 = ordinal 1), exactly as CPython's `datetime.date` stores
them; `date.weekday()`, `date.isocalendar()`, `date.year` and
`date.isoformat()` are embedded below following CPython's own
arithmetic, since the server's logic depends on them.  `week_start`
and `week_end` fields hold ISO `YYYY-MM-DD` strings, as in the Python
models.
-/

namespace Piso

/-- CPython `_is_leap`. -/
def is_leap (year : Nat) : Bool :=
  year % 4 == 0 && (year % 100 != 0 || year % 400 == 0)

/-- CPython `_DAYS_IN_MONTH` (index 0 unused). -/
def DAYS_IN_MONTH (m : Nat) : Nat :=
  [0, 31, 28, 31, 30, 31, 30, 31, 31, 30, 31, 30, 31].getD m 0

/-- CPython `_DAYS_BEFORE_MONTH` (index 0 unused): days in the year
preceding the first of month `m`, for a non-leap year. -/
def DAYS_BEFORE_MONTH (m : Nat) : Nat :=
  [0, 0, 31, 59, 90, 120, 151, 181, 212, 243, 273, 304, 334].getD m 0

/-- CPython `_days_before_year`: days before January 1 of `year`. -/
def days_before_year (year : Nat) : Nat :=
  let y := year - 1
  y * 365 + y / 4 - y / 100 + y / 400

/-- CPython `_ymd2ord`: proleptic-Gregorian ordinal of a calendar date. -/
def ymd2ord (year month day : Nat) : Nat :=
  days_before_year year + DAYS_BEFORE_MONTH month +
    (if month > 2 && is_leap year then 1 else 0) + day

/-- CPython `_ord2ymd`: calendar date of a proleptic-Gregorian ordinal. -/
def ord2ymd (ordn : Nat) : Nat × Nat × Nat :=
  let n := ordn - 1
  let n400 := n / 146097
  let n := n % 146097
  let n100 := n / 36524
  let n := n % 36524
  let n4 := n / 1461
  let n := n % 1461
  let n1 := n / 365
  let n := n % 365
  let year := n400 * 400 + 1 + n100 * 100 + n4 * 4 + n1
  if n1 == 4 || n100 == 4 then
    (year - 1, 12, 31)
  else
    let leap := n1 == 3 && (n4 != 24 || n100 == 3)
    let month := (n + 50) / 32
    let preceding := DAYS_BEFORE_MONTH month + (if month > 2 && leap then 1 else 0)
    if preceding > n then
      let month' := month - 1
      let preceding' := preceding -
        (DAYS_IN_MONTH month' + (if month' == 2 && leap then 1 else 0))
      (year, month', n - preceding' + 1)
    else
      (year, month, n - preceding + 1)

/-- `date.weekday()`: Monday = 0, ..., Sunday = 6 (ordinal 1 is a Monday). -/
def weekday (ordn : Nat) : Nat := (ordn + 6) % 7

/-- CPython `_isoweek1monday`: ordinal of the Monday starting ISO week 1
of `year` (the week containing January 4 / the first Thursday). -/
def isoweek1monday (year : Nat) : Nat :=
  let firstday := ymd2ord year 1 1
  let firstweekday := (firstday + 6) % 7
  let week1monday := firstday - firstweekday
  if firstweekday > 3 then week1monday + 7 else week1monday

/-- CPython `date.isocalendar()`: (ISO year, ISO week number, ISO weekday). -/
def isocalendar (ordn : Nat) : Nat × Nat × Nat :=
  let year := (ord2ymd ordn).1
  let week1monday := isoweek1monday year
  if ordn < week1monday then
    let year' := year - 1
    let w1 := isoweek1monday year'
    (year', (ordn - w1) / 7 + 1, (ordn - w1) % 7 + 1)
  else
    let week := (ordn - week1monday) / 7
    if week ≥ 52 && ordn ≥ isoweek1monday (year + 1) then
      (year + 1, 1, (ordn - week1monday) % 7 + 1)
    else
      (year, week + 1, (ordn - week1monday) % 7 + 1)

/-- Decimal digit character. -/
def digitChar (n : Nat) : Char := Char.ofNat (48 + n)

/-- Two-digit zero-padded decimal (months and days are < 100). -/
def pad2 (n : Nat) : String :=
  String.mk [digitChar (n / 10 % 10), digitChar (n % 10)]

/-- Four-digit zero-padded decimal (`date` years are ≤ 9999). -/
def pad4 (n : Nat) : String :=
  String.mk [digitChar (n / 1000 % 10), digitChar (n / 100 % 10),
             digitChar (n / 10 % 10), digitChar (n % 10)]

/-- `date.isoformat()`: the `YYYY-MM-DD` string of an ordinal. -/
def isoformat (ordn : Nat) : String :=
  match ord2ymd ordn with
  | (y, m, d) => pad4 y ++ "-" ++ pad2 m ++ "-" ++ pad2 d

/-- `PersonType` enum (server.py lines 29-33). -/
inductive PersonType where
  | joan | mery | paco | belen
deriving DecidableEq, Repr, BEq

/-- `AreaType` enum (server.py lines 35-39). -/
inductive AreaType where
  | cocina | salon_pasillo | bano_joan_mery | bano_paco_belen
deriving DecidableEq, Repr, BEq

/-- `TaskType` enum (server.py lines 41-43). -/
inductive TaskType where
  | limpieza_principal | limpieza_bano
deriving DecidableEq, Repr, BEq

/-- `PersonTask` model (server.py lines 46-53).  The random uuid `id`
field is omitted: it is generated once and never read or written by any
operation verified here. -/
structure PersonTask where
  week_start : String
  person : PersonType
  area : AreaType
  task_type : TaskType
  limpieza_completada : Bool := false
  completed_at : Option String := none
deriving DecidableEq, Repr

/-- `WeekSchedule` model (server.py lines 55-69), uuid `id` omitted as above. -/
structure WeekSchedule where
  week_start : String
  week_end : String
  week_number : Nat
  year : Nat
  joan_area : AreaType
  mery_area : AreaType
  paco_area : AreaType
  belen_area : AreaType
  joan_bano : Bool
  mery_bano : Bool
  paco_bano : Bool
  belen_bano : Bool
  tasks : List PersonTask := []
deriving DecidableEq, Repr

/-- `TaskCompletionUpdate` request model (server.py lines 71-76).  Note
that `week_start` is a plain `str` field in the source, carrying no date
validation. -/
structure TaskCompletionUpdate where
  week_start : String
  person : PersonType
  area : AreaType
  task_type : TaskType
  completed : Bool
deriving DecidableEq, Repr

/-- `get_monday_of_week` (server.py lines 79-83). -/
def get_monday_of_week (d : Nat) : Nat :=
  d - weekday d

/-- `get_sunday_of_week` (server.py lines 85-89). -/
def get_sunday_of_week (d : Nat) : Nat :=
  get_monday_of_week d + 6

/-- `get_next_monday` (server.py lines 91-97), with `today` passed
explicitly in place of the system-clock read. -/
def get_next_monday (today : Nat) : Nat :=
  let days_until_monday := (7 - weekday today) % 7
  let days_until_monday := if days_until_monday == 0 then 7 else days_until_monday
  today + days_until_monday

/-- One iteration of the `while` body of `generate_all_schedules`
(server.py lines 108-196): the schedule for the week starting at
ordinal `monday`, at loop index `week_counter`. -/
def mk_week (monday week_counter : Nat) : WeekSchedule :=
  let sunday := get_sunday_of_week monday
  let joan_area := if week_counter % 2 == 0 then AreaType.cocina else AreaType.salon_pasillo
  let mery_area := joan_area
  let paco_area := if week_counter % 2 == 0 then AreaType.salon_pasillo else AreaType.cocina
  let belen_area := paco_area
  let joan_bano := week_counter % 2 == 0
  let mery_bano := week_counter % 2 == 1
  let paco_bano := week_counter % 2 == 0
  let belen_bano := week_counter % 2 == 1
  let ws := isoformat monday
  let tasks : List PersonTask :=
    [⟨ws, PersonType.joan, joan_area, TaskType.limpieza_principal, false, none⟩,
     ⟨ws, PersonType.mery, mery_area, TaskType.limpieza_principal, false, none⟩,
     ⟨ws, PersonType.paco, paco_area, TaskType.limpieza_principal, false, none⟩,
     ⟨ws, PersonType.belen, belen_area, TaskType.limpieza_principal, false, none⟩]
    ++ (if joan_bano then
          [⟨ws, PersonType.joan, AreaType.bano_joan_mery, TaskType.limpieza_bano, false, none⟩]
        else [])
    ++ (if mery_bano then
          [⟨ws, PersonType.mery, AreaType.bano_joan_mery, TaskType.limpieza_bano, false, none⟩]
        else [])
    ++ (if paco_bano then
          [⟨ws, PersonType.paco, AreaType.bano_paco_belen, TaskType.limpieza_bano, false, none⟩]
        else [])
    ++ (if belen_bano then
          [⟨ws, PersonType.belen, AreaType.bano_paco_belen, TaskType.limpieza_bano, false, none⟩]
        else [])
  { week_start := ws
    week_end := isoformat sunday
    week_number := (isocalendar monday).2.1
    year := (ord2ymd monday).1
    joan_area := joan_area
    mery_area := mery_area
    paco_area := paco_area
    belen_area := belen_area
    joan_bano := joan_bano
    mery_bano := mery_bano
    paco_bano := paco_bano
    belen_bano := belen_bano
    tasks := tasks }

/-- The `while current_date <= end_date` loop of `generate_all_schedules`
(server.py lines 108-196), stepping by 7 days.  `fuel` is the loop
variant `end_date + 1 - current_date`, made an explicit structural
argument so that the function computes by kernel reduction;
`generate_weeks_eq` below recovers the literal loop-step equation. -/
def generate_weeks_go : Nat → Nat → Nat → Nat → List WeekSchedule
  | 0, _, _, _ => []
  | fuel + 1, current_date, end_date, week_counter =>
    if current_date ≤ end_date then
      mk_week current_date week_counter ::
        generate_weeks_go fuel (current_date + 7) end_date (week_counter + 1)
    else []

/-- The loop of `generate_all_schedules`, entered with the exact fuel. -/
def generate_weeks (current_date end_date week_counter : Nat) : List WeekSchedule :=
  generate_weeks_go (end_date + 1 - current_date) current_date end_date week_counter

/-- `generate_all_schedules` (server.py lines 99-198), with `today`
passed explicitly in place of the system-clock read. -/
def generate_all_schedules (today : Nat) : List WeekSchedule :=
  let start_date := get_next_monday today
  let end_date := ymd2ord 2026 7 1
  generate_weeks start_date end_date 0

/-- The `$elemMatch` condition of `complete_task` (server.py lines
255-259): the task matches the request's person, area and task type. -/
def task_matches (u : TaskCompletionUpdate) (t : PersonTask) : Bool :=
  t.person == u.person && t.area == u.area && t.task_type == u.task_type

/-- The `filter_query` of `complete_task` (server.py lines 252-261): the
document's `week_start` equals the request's, and some embedded task
satisfies the `$elemMatch`. -/
def schedule_matches (u : TaskCompletionUpdate) (s : WeekSchedule) : Bool :=
  s.week_start == u.week_start && s.tasks.any (task_matches u)

/-- The `update_query` applied through the positional `$` operator
(server.py lines 263-270): set the two completion fields of the first
task satisfying the `$elemMatch`, leaving every other element intact. -/
def update_first_task (u : TaskCompletionUpdate) (completed_at : Option String) :
    List PersonTask → List PersonTask
  | [] => []
  | t :: ts =>
    if task_matches u t then
      { t with limpieza_completada := u.completed, completed_at := completed_at } :: ts
    else
      t :: update_first_task u completed_at ts

/-- `db.week_schedules.update_one(filter_query, update_query)` inside
`complete_task` (server.py lines 248-281): update the first matching
document; returns (`matched_count == 1`, resulting collection), the
collection modelled as a list of documents in natural order.
`completed_at` is `now` when marking complete, `None` when unmarking
(line 263). -/
def complete_task (u : TaskCompletionUpdate) (now : String) :
    List WeekSchedule → Bool × List WeekSchedule
  | [] => (false, [])
  | s :: ss =>
    if schedule_matches u s then
      (true,
        { s with tasks :=
            update_first_task u (if u.completed then some now else none) s.tasks } :: ss)
    else
      let r := complete_task u now ss
      (r.1, s :: r.2)

/-- `find_one({}, sort=[("week_start", 1)])` (server.py line 238): the
first document with the least `week_start` (MongoDB compares the ISO
date strings byte-wise, i.e. lexicographically). -/
def find_earliest : List WeekSchedule → Option WeekSchedule
  | [] => none
  | s :: ss =>
    some (ss.foldl (fun m t => if t.week_start < m.week_start then t else m) s)

/-- `get_current_week` (server.py lines 226-246), with `today` passed
explicitly in place of the system-clock read: exact lookup of this
week's Monday, else earliest document, else `None` (→ HTTP 404). -/
def get_current_week (today : Nat) (store : List WeekSchedule) : Option WeekSchedule :=
  let monday := get_monday_of_week today
  match store.find? (fun s => s.week_start == isoformat monday) with
  | some s => some s
  | none => find_earliest store

/-- Raw, not-yet-validated `POST /complete-task` body: every field a
plain string as it arrives in JSON (plus the boolean). -/
structure RawTaskCompletionUpdate where
  week_start : String
  person : String
  area : String
  task_type : String
  completed : Bool
deriving DecidableEq, Repr

/-- Pydantic validation of the `person` field against `PersonType`. -/
def parsePerson (s : String) : Option PersonType :=
  if s == "joan" then some PersonType.joan
  else if s == "mery" then some PersonType.mery
  else if s == "paco" then some PersonType.paco
  else if s == "belen" then some PersonType.belen
  else none

/-- Pydantic validation of the `area` field against `AreaType`. -/
def parseArea (s : String) : Option AreaType :=
  if s == "cocina" then some AreaType.cocina
  else if s == "salon_pasillo" then some AreaType.salon_pasillo
  else if s == "bano_joan_mery" then some AreaType.bano_joan_mery
  else if s == "bano_paco_belen" then some AreaType.bano_paco_belen
  else none

/-- Pydantic validation of the `task_type` field against `TaskType`. -/
def parseTaskType (s : String) : Option TaskType :=
  if s == "limpieza_principal" then some TaskType.limpieza_principal
  else if s == "limpieza_bano" then some TaskType.limpieza_bano
  else none

/-- Pydantic validation of a `TaskCompletionUpdate` body (server.py
lines 71-76): the three enum fields must parse; `week_start` is typed
`str`, so any string is accepted for it.  `none` models an HTTP 422
response. -/
def validate_update (r : RawTaskCompletionUpdate) : Option TaskCompletionUpdate :=
  match parsePerson r.person, parseArea r.area, parseTaskType r.task_type with
  | some p, some a, some tt => some ⟨r.week_start, p, a, tt, r.completed⟩
  | _, _, _ => none

/-! ### Loop lemmas for the generator -/

theorem generate_weeks_go_of_gt (f c e k : Nat) (h : ¬ c ≤ e) :
    generate_weeks_go f c e k = [] := by
  cases f <;> simp [generate_weeks_go, h]

theorem generate_weeks_go_congr (e : Nat) :
    ∀ f f' c k, e + 1 - c ≤ f → e + 1 - c ≤ f' →
      generate_weeks_go f c e k = generate_weeks_go f' c e k := by
  intro f
  induction f with
  | zero =>
    intro f' c k h _
    have hc : ¬ c ≤ e := by omega
    rw [generate_weeks_go_of_gt _ _ _ _ hc, generate_weeks_go_of_gt _ _ _ _ hc]
  | succ n ih =>
    intro f' c k h h'
    by_cases hc : c ≤ e
    · cases f' with
      | zero => omega
      | succ m =>
        simp only [generate_weeks_go, if_pos hc]
        exact congrArg _ (ih m (c + 7) (k + 1) (by omega) (by omega))
    · rw [generate_weeks_go_of_gt _ _ _ _ hc, generate_weeks_go_of_gt _ _ _ _ hc]

/-- The literal step equation of the `while` loop (server.py line 108). -/
theorem generate_weeks_eq (c e k : Nat) :
    generate_weeks c e k =
      if c ≤ e then mk_week c k :: generate_weeks (c + 7) e (k + 1) else [] := by
  by_cases hc : c ≤ e
  · have h1 : e + 1 - c = (e - c) + 1 := by omega
    rw [if_pos hc, generate_weeks, generate_weeks, h1]
    simp only [generate_weeks_go, if_pos hc]
    exact congrArg _
      (generate_weeks_go_congr e (e - c) (e + 1 - (c + 7)) (c + 7) (k + 1)
        (by omega) (by omega))
  · rw [if_neg hc, generate_weeks, generate_weeks_go_of_gt _ _ _ _ hc]

theorem generate_weeks_go_get? (e : Nat) :
    ∀ f c k i s, (generate_weeks_go f c e k).get? i = some s →
      c + 7 * i ≤ e ∧ s = mk_week (c + 7 * i) (k + i) := by
  intro f
  induction f with
  | zero => intro c k i s h; simp [generate_weeks_go] at h
  | succ n ih =>
    intro c k i s h
    by_cases hc : c ≤ e
    · simp only [generate_weeks_go, if_pos hc] at h
      cases i with
      | zero =>
        rw [List.get?_cons_zero] at h
        exact ⟨by omega, by simpa using (Option.some.inj h).symm⟩
      | succ j =>
        rw [List.get?_cons_succ] at h
        obtain ⟨h1, h2⟩ := ih (c + 7) (k + 1) j s h
        refine ⟨by omega, ?_⟩
        rw [h2]
        congr 1 <;> omega
    · rw [generate_weeks_go_of_gt _ _ _ _ hc] at h; simp at h

theorem generate_weeks_get? {c e k i : Nat} {s : WeekSchedule}
    (h : (generate_weeks c e k).get? i = some s) :
    c + 7 * i ≤ e ∧ s = mk_week (c + 7 * i) (k + i) :=
  generate_weeks_go_get? e (e + 1 - c) c k i s h

theorem generate_weeks_mem {c e k : Nat} {s : WeekSchedule}
    (h : s ∈ generate_weeks c e k) :
    ∃ i, c + 7 * i ≤ e ∧ s = mk_week (c + 7 * i) (k + i) := by
  rw [List.mem_iff_get?] at h
  obtain ⟨i, hi⟩ := h
  exact ⟨i, generate_weeks_get? hi⟩

theorem generate_weeks_go_getLast? (e : Nat) :
    ∀ f c k s, e + 1 - c ≤ f → (generate_weeks_go f c e k).getLast? = some s →
      ∃ i, c + 7 * i ≤ e ∧ e < c + 7 * i + 7 ∧ s = mk_week (c + 7 * i) (k + i) := by
  intro f
  induction f with
  | zero => intro c k s _ h; simp [generate_weeks_go] at h
  | succ n ih =>
    intro c k s hf h
    by_cases hc : c ≤ e
    · simp only [generate_weeks_go, if_pos hc] at h
      by_cases hc7 : c + 7 ≤ e
      · have hne : generate_weeks_go n (c + 7) e (k + 1) ≠ [] := by
          cases n with
          | zero => omega
          | succ m => simp [generate_weeks_go, hc7]
        obtain ⟨b, l', hbl⟩ := List.exists_cons_of_ne_nil hne
        rw [hbl, List.getLast?_cons_cons, ← hbl] at h
        obtain ⟨i, hi1, hi2, hi3⟩ := ih (c + 7) (k + 1) s (by omega) h
        refine ⟨i + 1, by omega, by omega, ?_⟩
        rw [hi3]
        congr 1 <;> omega
      · rw [generate_weeks_go_of_gt _ _ _ _ hc7, List.getLast?_singleton] at h
        exact ⟨0, by omega, by omega, by simpa using (Option.some.inj h).symm⟩
    · rw [generate_weeks_go_of_gt _ _ _ _ hc] at h; simp at h

theorem generate_weeks_getLast? {c e k : Nat} {s : WeekSchedule}
    (h : (generate_weeks c e k).getLast? = some s) :
    ∃ i, c + 7 * i ≤ e ∧ e < c + 7 * i + 7 ∧ s = mk_week (c + 7 * i) (k + i) :=
  generate_weeks_go_getLast? e (e + 1 - c) c k s (by omega) h

/-! ### Weekday lemmas -/

theorem get_monday_lt_get_next_monday (today : Nat) :
    get_monday_of_week today < get_next_monday today := by
  simp only [get_monday_of_week, get_next_monday, weekday]
  split <;> rename_i h <;> simp at h <;> omega

theorem weekday_get_next_monday (today : Nat) :
    weekday (get_next_monday today) = 0 := by
  simp only [get_next_monday, weekday]
  split <;> rename_i h <;> simp at h <;> omega

theorem weekday_add_mul_seven (c i : Nat) (h : weekday c = 0) :
    weekday (c + 7 * i) = 0 := by
  unfold weekday at h ⊢
  omega

theorem get_sunday_of_monday (m : Nat) (h : weekday m = 0) :
    get_sunday_of_week m = m + 6 := by
  unfold get_sunday_of_week get_monday_of_week
  omega

/-! ### Claim theorems -/

/-- C1: in every generated `WeekSchedule`, Joan's main area equals Mery's,
Paco's main area equals Belén's, and the two pairs' main areas differ. -/
theorem main_area_pairing (today : Nat) (s : WeekSchedule)
    (hs : s ∈ generate_all_schedules today) :
    s.joan_area = s.mery_area ∧ s.paco_area = s.belen_area ∧
      s.joan_area ≠ s.paco_area := by
  have hs' : s ∈ generate_weeks (get_next_monday today) (ymd2ord 2026 7 1) 0 := hs
  obtain ⟨i, -, rfl⟩ := generate_weeks_mem hs'
  by_cases h : i % 2 = 0 <;> simp [mk_week, h]

theorem main_area_pairing_witness :
    mk_week (ymd2ord 2026 6 22) 0 ∈ generate_all_schedules (ymd2ord 2026 6 15) ∧
    ((mk_week (ymd2ord 2026 6 22) 0).joan_area = (mk_week (ymd2ord 2026 6 22) 0).mery_area ∧
     (mk_week (ymd2ord 2026 6 22) 0).paco_area = (mk_week (ymd2ord 2026 6 22) 0).belen_area ∧
     (mk_week (ymd2ord 2026 6 22) 0).joan_area ≠ (mk_week (ymd2ord 2026 6 22) 0).paco_area) :=
  ⟨by decide, main_area_pairing (ymd2ord 2026 6 15) _ (by decide)⟩

/-- C2: in the generated sequence, the week at index `i` has
`joan_bano` and `paco_bano` true exactly when `i` is even, and
`mery_bano` and `belen_bano` true exactly when `i` is odd; hence
`joan_bano ≠ mery_bano` and `paco_bano ≠ belen_bano` in every week. -/
theorem bathroom_parity (today i : Nat) (s : WeekSchedule)
    (h : (generate_all_schedules today).get? i = some s) :
    ((s.joan_bano = true ↔ i % 2 = 0) ∧ (s.paco_bano = true ↔ i % 2 = 0) ∧
     (s.mery_bano = true ↔ i % 2 = 1) ∧ (s.belen_bano = true ↔ i % 2 = 1)) ∧
    s.joan_bano ≠ s.mery_bano ∧ s.paco_bano ≠ s.belen_bano := by
  have h' : (generate_weeks (get_next_monday today) (ymd2ord 2026 7 1) 0).get? i
      = some s := h
  obtain ⟨-, rfl⟩ := generate_weeks_get? h'
  by_cases hp : i % 2 = 0
  · simp [mk_week, hp]
  · have hp1 : i % 2 = 1 := by omega
    simp [mk_week, hp1]

theorem bathroom_parity_witness :
    (generate_all_schedules (ymd2ord 2026 6 15)).get? 1 = some (mk_week (ymd2ord 2026 6 29) 1) ∧
    (((mk_week (ymd2ord 2026 6 29) 1).joan_bano = true ↔ 1 % 2 = 0) ∧
     ((mk_week (ymd2ord 2026 6 29) 1).paco_bano = true ↔ 1 % 2 = 0) ∧
     ((mk_week (ymd2ord 2026 6 29) 1).mery_bano = true ↔ 1 % 2 = 1) ∧
     ((mk_week (ymd2ord 2026 6 29) 1).belen_bano = true ↔ 1 % 2 = 1)) ∧
    (mk_week (ymd2ord 2026 6 29) 1).joan_bano ≠ (mk_week (ymd2ord 2026 6 29) 1).mery_bano ∧
    (mk_week (ymd2ord 2026 6 29) 1).paco_bano ≠ (mk_week (ymd2ord 2026 6 29) 1).belen_bano :=
  ⟨by decide, bathroom_parity (ymd2ord 2026 6 15) 1 _ (by decide)⟩

/-- C3: the first generated week's Monday is strictly after the current
week's Monday; when today is itself a Monday the start is today + 7
days, never today; and the first schedule's `week_start` is the ISO
string of that next Monday. -/
theorem first_week_strictly_future (today : Nat) :
    get_monday_of_week today < get_next_monday today ∧
    (weekday today = 0 → get_next_monday today = today + 7) ∧
    ∀ s, (generate_all_schedules today).head? = some s →
      s.week_start = isoformat (get_next_monday today) := by
  refine ⟨get_monday_lt_get_next_monday today, ?_, ?_⟩
  · intro h
    simp only [get_next_monday]
    rw [h]
    norm_num
  · intro s hs
    have hs' : (generate_weeks (get_next_monday today) (ymd2ord 2026 7 1) 0).head?
        = some s := hs
    rw [generate_weeks_eq] at hs'
    by_cases hc : get_next_monday today ≤ ymd2ord 2026 7 1
    · rw [if_pos hc] at hs'
      simp only [List.head?_cons, Option.some.injEq] at hs'
      rw [← hs']
      simp [mk_week]
    · rw [if_neg hc] at hs'
      simp at hs'

theorem first_week_strictly_future_witness :
    weekday (ymd2ord 2026 6 15) = 0 ∧
    get_monday_of_week (ymd2ord 2026 6 15) < get_next_monday (ymd2ord 2026 6 15) ∧
    get_next_monday (ymd2ord 2026 6 15) = ymd2ord 2026 6 15 + 7 ∧
    (generate_all_schedules (ymd2ord 2026 6 15)).head? = some (mk_week (ymd2ord 2026 6 22) 0) ∧
    (mk_week (ymd2ord 2026 6 22) 0).week_start = isoformat (get_next_monday (ymd2ord 2026 6 15)) :=
  ⟨by decide, (first_week_strictly_future (ymd2ord 2026 6 15)).1,
   (first_week_strictly_future (ymd2ord 2026 6 15)).2.1 (by decide), by decide,
   (first_week_strictly_future (ymd2ord 2026 6 15)).2.2 _ (by decide)⟩

/-- C4: the generation horizon: when the computed start Monday already
exceeds 2026-07-01 the result is the empty list (no error — the
function is total); otherwise the sequence is non-empty, the last
week's Monday is ≤ 2026-07-01, and the next would-be Monday (+7)
exceeds 2026-07-01. -/
theorem generation_horizon (today : Nat) :
    (ymd2ord 2026 7 1 < get_next_monday today → generate_all_schedules today = []) ∧
    (get_next_monday today ≤ ymd2ord 2026 7 1 → generate_all_schedules today ≠ []) ∧
    ∀ s, (generate_all_schedules today).getLast? = some s →
      ∃ m, s.week_start = isoformat m ∧ m ≤ ymd2ord 2026 7 1 ∧
        ymd2ord 2026 7 1 < m + 7 := by
  refine ⟨?_, ?_, ?_⟩
  · intro h
    show generate_weeks (get_next_monday today) (ymd2ord 2026 7 1) 0 = []
    rw [generate_weeks_eq, if_neg (by omega)]
  · intro h
    show generate_weeks (get_next_monday today) (ymd2ord 2026 7 1) 0 ≠ []
    rw [generate_weeks_eq, if_pos h]
    simp
  · intro s hs
    have hs' : (generate_weeks (get_next_monday today) (ymd2ord 2026 7 1) 0).getLast?
        = some s := hs
    obtain ⟨i, h1, h2, rfl⟩ := generate_weeks_getLast? hs'
    exact ⟨get_next_monday today + 7 * i, by simp [mk_week], h1, h2⟩

theorem generation_horizon_witness :
    (ymd2ord 2026 7 1 < get_next_monday (ymd2ord 2026 6 30) ∧
     generate_all_schedules (ymd2ord 2026 6 30) = []) ∧
    (get_next_monday (ymd2ord 2026 6 15) ≤ ymd2ord 2026 7 1 ∧
     generate_all_schedules (ymd2ord 2026 6 15) ≠ []) ∧
    ((generate_all_schedules (ymd2ord 2026 6 15)).getLast?
        = some (mk_week (ymd2ord 2026 6 29) 1) ∧
     ∃ m, (mk_week (ymd2ord 2026 6 29) 1).week_start = isoformat m ∧
       m ≤ ymd2ord 2026 7 1 ∧ ymd2ord 2026 7 1 < m + 7) :=
  ⟨⟨by decide, (generation_horizon (ymd2ord 2026 6 30)).1 (by decide)⟩,
   ⟨by decide, (generation_horizon (ymd2ord 2026 6 15)).2.1 (by decide)⟩,
   ⟨by decide, (generation_horizon (ymd2ord 2026 6 15)).2.2 _ (by decide)⟩⟩

/-- C5: every generated week's task list is exactly the four main-cleaning
tasks (one per person, at that person's assigned main area) followed by
one bathroom-cleaning task for each person whose bathroom flag is set,
at that person's pair's fixed bathroom; every task is born with
completion flag `false` and completion timestamp `none`. -/
theorem tasks_shape (today : Nat) (s : WeekSchedule)
    (hs : s ∈ generate_all_schedules today) :
    s.tasks =
      [⟨s.week_start, PersonType.joan, s.joan_area, TaskType.limpieza_principal, false, none⟩,
       ⟨s.week_start, PersonType.mery, s.mery_area, TaskType.limpieza_principal, false, none⟩,
       ⟨s.week_start, PersonType.paco, s.paco_area, TaskType.limpieza_principal, false, none⟩,
       ⟨s.week_start, PersonType.belen, s.belen_area, TaskType.limpieza_principal, false, none⟩]
      ++ (if s.joan_bano then
            [⟨s.week_start, PersonType.joan, AreaType.bano_joan_mery, TaskType.limpieza_bano,
              false, none⟩] else [])
      ++ (if s.mery_bano then
            [⟨s.week_start, PersonType.mery, AreaType.bano_joan_mery, TaskType.limpieza_bano,
              false, none⟩] else [])
      ++ (if s.paco_bano then
            [⟨s.week_start, PersonType.paco, AreaType.bano_paco_belen, TaskType.limpieza_bano,
              false, none⟩] else [])
      ++ (if s.belen_bano then
            [⟨s.week_start, PersonType.belen, AreaType.bano_paco_belen, TaskType.limpieza_bano,
              false, none⟩] else []) := by
  have hs' : s ∈ generate_weeks (get_next_monday today) (ymd2ord 2026 7 1) 0 := hs
  obtain ⟨i, -, rfl⟩ := generate_weeks_mem hs'
  rfl

theorem tasks_shape_witness :
    mk_week (ymd2ord 2026 6 22) 0 ∈ generate_all_schedules (ymd2ord 2026 6 15) ∧
    (mk_week (ymd2ord 2026 6 22) 0).tasks =
      [⟨(mk_week (ymd2ord 2026 6 22) 0).week_start, PersonType.joan,
        (mk_week (ymd2ord 2026 6 22) 0).joan_area, TaskType.limpieza_principal, false, none⟩,
       ⟨(mk_week (ymd2ord 2026 6 22) 0).week_start, PersonType.mery,
        (mk_week (ymd2ord 2026 6 22) 0).mery_area, TaskType.limpieza_principal, false, none⟩,
       ⟨(mk_week (ymd2ord 2026 6 22) 0).week_start, PersonType.paco,
        (mk_week (ymd2ord 2026 6 22) 0).paco_area, TaskType.limpieza_principal, false, none⟩,
       ⟨(mk_week (ymd2ord 2026 6 22) 0).week_start, PersonType.belen,
        (mk_week (ymd2ord 2026 6 22) 0).belen_area, TaskType.limpieza_principal, false, none⟩]
      ++ (if (mk_week (ymd2ord 2026 6 22) 0).joan_bano then
            [⟨(mk_week (ymd2ord 2026 6 22) 0).week_start, PersonType.joan,
              AreaType.bano_joan_mery, TaskType.limpieza_bano, false, none⟩] else [])
      ++ (if (mk_week (ymd2ord 2026 6 22) 0).mery_bano then
            [⟨(mk_week (ymd2ord 2026 6 22) 0).week_start, PersonType.mery,
              AreaType.bano_joan_mery, TaskType.limpieza_bano, false, none⟩] else [])
      ++ (if (mk_week (ymd2ord 2026 6 22) 0).paco_bano then
            [⟨(mk_week (ymd2ord 2026 6 22) 0).week_start, PersonType.paco,
              AreaType.bano_paco_belen, TaskType.limpieza_bano, false, none⟩] else [])
      ++ (if (mk_week (ymd2ord 2026 6 22) 0).belen_bano then
            [⟨(mk_week (ymd2ord 2026 6 22) 0).week_start, PersonType.belen,
              AreaType.bano_paco_belen, TaskType.limpieza_bano, false, none⟩] else []) :=
  ⟨by decide, tasks_shape (ymd2ord 2026 6 15) _ (by decide)⟩

/-- C6 (amended): every generated week lies on a Monday ordinal `m` with
`week_end` = Monday + 6 days and `week_number` = the ISO week number of
the Monday, while `year` is the Monday's *calendar* year — the code
stores `monday.year`, not the ISO year, and the two differ at ISO-year
boundaries. -/
theorem week_fields (today : Nat) (s : WeekSchedule)
    (hs : s ∈ generate_all_schedules today) :
    ∃ m, weekday m = 0 ∧ s.week_start = isoformat m ∧
      s.week_end = isoformat (m + 6) ∧
      s.week_number = (isocalendar m).2.1 ∧ s.year = (ord2ymd m).1 := by
  have hs' : s ∈ generate_weeks (get_next_monday today) (ymd2ord 2026 7 1) 0 := hs
  obtain ⟨i, -, rfl⟩ := generate_weeks_mem hs'
  have hw : weekday (get_next_monday today + 7 * i) = 0 :=
    weekday_add_mul_seven _ _ (weekday_get_next_monday today)
  refine ⟨get_next_monday today + 7 * i, hw, rfl, ?_, rfl, rfl⟩
  show isoformat (get_sunday_of_week (get_next_monday today + 7 * i))
      = isoformat (get_next_monday today + 7 * i + 6)
  rw [get_sunday_of_monday _ hw]

theorem week_fields_witness :
    mk_week (ymd2ord 2026 6 22) 0 ∈ generate_all_schedules (ymd2ord 2026 6 15) ∧
    ∃ m, weekday m = 0 ∧ (mk_week (ymd2ord 2026 6 22) 0).week_start = isoformat m ∧
      (mk_week (ymd2ord 2026 6 22) 0).week_end = isoformat (m + 6) ∧
      (mk_week (ymd2ord 2026 6 22) 0).week_number = (isocalendar m).2.1 ∧
      (mk_week (ymd2ord 2026 6 22) 0).year = (ord2ymd m).1 :=
  ⟨by decide, week_fields (ymd2ord 2026 6 15) _ (by decide)⟩

/-- C6 counterexample: generating with today = Monday 2025-12-22 makes the
first schedule the week of Monday 2025-12-29, whose stored `year` is the
calendar year 2025, while the ISO year of that Monday is 2026 — so the
`year` field is not the ISO year derived from the Monday. -/
theorem week_fields_counterexample :
    (generate_all_schedules (ymd2ord 2025 12 22)).head?.map
        (fun s => (s.week_start, s.week_number, s.year))
      = some ("2025-12-29", 1, 2025) ∧
    isocalendar (ymd2ord 2025 12 29) = (2026, 1, 1) ∧ (2025 : Nat) ≠ 2026 :=
  ⟨rfl, rfl, by decide⟩

/-- C10: every task embedded in a generated week carries the enclosing
schedule's `week_start`, and the (person, area, task_type) triples of a
schedule's tasks are pairwise distinct, so the triple identifies a task
within its schedule. -/
theorem task_week_start_inherited (today : Nat) (s : WeekSchedule) (t : PersonTask)
    (hs : s ∈ generate_all_schedules today) (ht : t ∈ s.tasks) :
    t.week_start = s.week_start ∧
    (s.tasks.map fun t => (t.person, t.area, t.task_type)).Nodup := by
  have hs' : s ∈ generate_weeks (get_next_monday today) (ymd2ord 2026 7 1) 0 := hs
  obtain ⟨i, -, rfl⟩ := generate_weeks_mem hs'
  by_cases hp : i % 2 = 0
  · constructor
    · simp [mk_week, hp] at ht ⊢
      rcases ht with rfl | rfl | rfl | rfl | rfl | rfl <;> rfl
    · simp [mk_week, hp]
  · have hp1 : i % 2 = 1 := by omega
    constructor
    · simp [mk_week, hp1] at ht ⊢
      rcases ht with rfl | rfl | rfl | rfl | rfl | rfl <;> rfl
    · simp [mk_week, hp1]

theorem task_week_start_inherited_witness :
    mk_week (ymd2ord 2026 6 22) 0 ∈ generate_all_schedules (ymd2ord 2026 6 15) ∧
    (⟨isoformat (ymd2ord 2026 6 22), PersonType.joan, AreaType.cocina,
        TaskType.limpieza_principal, false, none⟩ : PersonTask)
      ∈ (mk_week (ymd2ord 2026 6 22) 0).tasks ∧
    ((⟨isoformat (ymd2ord 2026 6 22), PersonType.joan, AreaType.cocina,
        TaskType.limpieza_principal, false, none⟩ : PersonTask).week_start
      = (mk_week (ymd2ord 2026 6 22) 0).week_start ∧
     ((mk_week (ymd2ord 2026 6 22) 0).tasks.map
        fun t => (t.person, t.area, t.task_type)).Nodup) :=
  ⟨by decide, by decide,
   task_week_start_inherited (ymd2ord 2026 6 15) _ _ (by decide) (by decide)⟩

/-! ### Store-operation lemmas -/

@[simp] theorem personType_beq_iff (a b : PersonType) : (a == b) = true ↔ a = b := by
  cases a <;> cases b <;> decide

@[simp] theorem areaType_beq_iff (a b : AreaType) : (a == b) = true ↔ a = b := by
  cases a <;> cases b <;> decide

@[simp] theorem taskType_beq_iff (a b : TaskType) : (a == b) = true ↔ a = b := by
  cases a <;> cases b <;> decide

theorem update_first_task_spec (u : TaskCompletionUpdate) (ca : Option String) :
    ∀ l : List PersonTask, l.any (task_matches u) = true →
      ∃ j t, l.get? j = some t ∧ task_matches u t = true ∧
        update_first_task u ca l =
          l.set j { t with limpieza_completada := u.completed, completed_at := ca } := by
  intro l
  induction l with
  | nil => intro h; simp at h
  | cons t ts ih =>
    intro h
    by_cases hm : task_matches u t = true
    · exact ⟨0, t, rfl, hm, by simp [update_first_task, hm]⟩
    · have h' : ts.any (task_matches u) = true := by
        rcases List.any_eq_true.mp h with ⟨x, hx, hpx⟩
        rcases List.mem_cons.mp hx with rfl | hx'
        · exact absurd hpx hm
        · exact List.any_eq_true.mpr ⟨x, hx', hpx⟩
      obtain ⟨j, t', h1, h2, h3⟩ := ih h'
      exact ⟨j + 1, t', by simpa using h1, h2, by simp [update_first_task, hm, h3]⟩

theorem complete_task_no_match (u : TaskCompletionUpdate) (now : String) :
    ∀ store : List WeekSchedule,
      ((complete_task u now store).1 = false ↔
        ∀ s ∈ store, schedule_matches u s = false) ∧
      ((complete_task u now store).1 = false →
        (complete_task u now store).2 = store) := by
  intro store
  induction store with
  | nil => simp [complete_task]
  | cons s ss ih =>
    by_cases hm : schedule_matches u s = true
    · constructor
      · simp [complete_task, hm]
      · intro h; simp [complete_task, hm] at h
    · rw [Bool.not_eq_true] at hm
      have hfst : (complete_task u now (s :: ss)).1 = (complete_task u now ss).1 := by
        simp [complete_task, hm]
      have hsnd : (complete_task u now (s :: ss)).2 = s :: (complete_task u now ss).2 := by
        simp [complete_task, hm]
      constructor
      · rw [hfst, ih.1]
        constructor
        · intro h x hx
          rcases List.mem_cons.mp hx with rfl | hx'
          · exact hm
          · exact h x hx'
        · intro h x hx
          exact h x (List.mem_cons_of_mem _ hx)
      · intro h
        rw [hfst] at h
        rw [hsnd, ih.2 h]

theorem foldl_min_spec :
    ∀ (l : List WeekSchedule) (init : WeekSchedule),
      (l.foldl (fun m t => if t.week_start < m.week_start then t else m) init = init ∨
        l.foldl (fun m t => if t.week_start < m.week_start then t else m) init ∈ l) ∧
      (l.foldl (fun m t => if t.week_start < m.week_start then t else m) init).week_start
        ≤ init.week_start ∧
      ∀ s ∈ l,
        (l.foldl (fun m t => if t.week_start < m.week_start then t else m) init).week_start
          ≤ s.week_start := by
  intro l
  induction l with
  | nil => intro init; simp
  | cons t ts ih =>
    intro init
    simp only [List.foldl_cons]
    obtain ⟨h1, h2, h3⟩ := ih (if t.week_start < init.week_start then t else init)
    have hle : (if t.week_start < init.week_start then t else init).week_start
        ≤ init.week_start := by
      split
      · exact le_of_lt (by assumption)
      · exact le_refl _
    have hlet : (if t.week_start < init.week_start then t else init).week_start
        ≤ t.week_start := by
      split
      · exact le_refl _
      · exact le_of_not_lt (by assumption)
    refine ⟨?_, le_trans h2 hle, ?_⟩
    · rcases h1 with h1 | h1
      · rw [h1]
        split
        · exact Or.inr (List.mem_cons_self _ _)
        · exact Or.inl rfl
      · exact Or.inr (List.mem_cons_of_mem _ h1)
    · intro s hs
      rcases List.mem_cons.mp hs with rfl | hs'
      · exact le_trans h2 hlet
      · exact h3 s hs'

theorem find_earliest_spec (store : List WeekSchedule) :
    (find_earliest store = none ↔ store = []) ∧
    ∀ r, find_earliest store = some r →
      r ∈ store ∧ ∀ s ∈ store, r.week_start ≤ s.week_start := by
  cases store with
  | nil => simp [find_earliest]
  | cons s ss =>
    constructor
    · simp [find_earliest]
    · intro r hr
      simp only [find_earliest, Option.some.injEq] at hr
      obtain ⟨h1, h2, h3⟩ := foldl_min_spec ss s
      constructor
      · rw [← hr]
        rcases h1 with h1 | h1
        · rw [h1]; exact List.mem_cons_self _ _
        · exact List.mem_cons_of_mem _ h1
      · intro x hx
        rcases List.mem_cons.mp hx with rfl | hx'
        · rw [← hr]; exact h2
        · rw [← hr]; exact h3 x hx'

/-- C7: on a successful completion update, exactly one task of exactly
one matching schedule has its completion flag set to the request's value
and its timestamp set to the current time when marking complete and
cleared to `none` when unmarking; everything else in the store (other
schedules, other tasks, the other fields of the updated schedule and
task) is unchanged, the result being a pointwise `List.set`. -/
theorem complete_task_frame (u : TaskCompletionUpdate) (now : String) :
    ∀ store : List WeekSchedule, (complete_task u now store).1 = true →
      ∃ k s j t, store.get? k = some s ∧ s.week_start = u.week_start ∧
        s.tasks.get? j = some t ∧
        t.person = u.person ∧ t.area = u.area ∧ t.task_type = u.task_type ∧
        (complete_task u now store).2 = store.set k { s with tasks := s.tasks.set j { t with limpieza_completada := u.completed, completed_at := if u.completed then some now else none } } := by
  intro store
  induction store with
  | nil => intro h; simp [complete_task] at h
  | cons s ss ih =>
    intro h
    by_cases hm : schedule_matches u s = true
    · have hm' : s.week_start = u.week_start ∧ ∃ x ∈ s.tasks, task_matches u x = true := by
        simpa [schedule_matches] using hm
      have hany : s.tasks.any (task_matches u) = true := List.any_eq_true.mpr hm'.2
      obtain ⟨j, t, h1, h2, h3⟩ :=
        update_first_task_spec u (if u.completed then some now else none) s.tasks hany
      have h2' : (t.person = u.person ∧ t.area = u.area) ∧ t.task_type = u.task_type := by
        simpa [task_matches] using h2
      refine ⟨0, s, j, t, rfl, hm'.1, h1, h2'.1.1, h2'.1.2, h2'.2, ?_⟩
      simp [complete_task, hm, h3]
    · rw [Bool.not_eq_true] at hm
      have h' : (complete_task u now ss).1 = true := by
        simpa [complete_task, hm] using h
      obtain ⟨k, s', j, t, h1, h2, h3, h4, h5, h6, h7⟩ := ih h'
      refine ⟨k + 1, s', j, t, by simpa using h1, h2, h3, h4, h5, h6, ?_⟩
      simp [complete_task, hm, h7]

theorem complete_task_frame_witness :
    (complete_task ⟨isoformat (ymd2ord 2026 6 22), PersonType.joan, AreaType.cocina,
        TaskType.limpieza_principal, true⟩ "2026-06-23T10:00:00+00:00"
        (generate_all_schedules (ymd2ord 2026 6 15))).1 = true ∧
    ∃ k s j t,
      (generate_all_schedules (ymd2ord 2026 6 15)).get? k = some s ∧
      s.week_start = isoformat (ymd2ord 2026 6 22) ∧
      s.tasks.get? j = some t ∧
      t.person = PersonType.joan ∧ t.area = AreaType.cocina ∧
      t.task_type = TaskType.limpieza_principal ∧
      (complete_task ⟨isoformat (ymd2ord 2026 6 22), PersonType.joan, AreaType.cocina,
          TaskType.limpieza_principal, true⟩ "2026-06-23T10:00:00+00:00"
          (generate_all_schedules (ymd2ord 2026 6 15))).2 = (generate_all_schedules (ymd2ord 2026 6 15)).set k { s with tasks := s.tasks.set j { t with limpieza_completada := true, completed_at := some "2026-06-23T10:00:00+00:00" } } :=
  ⟨by decide,
   complete_task_frame
     ⟨isoformat (ymd2ord 2026 6 22), PersonType.joan, AreaType.cocina,
       TaskType.limpieza_principal, true⟩
     "2026-06-23T10:00:00+00:00"
     (generate_all_schedules (ymd2ord 2026 6 15)) (by decide)⟩

/-- C8 (amended): `complete-task` responds 404 — no update performed,
store unchanged — iff no stored schedule carries the request's
`week_start` together with a task matching (person, area, task_type);
validation rejects the body (422) iff `person`, `area` or `task_type`
is not one of the enumerated values.  `week_start` is an unvalidated
plain string: a malformed date passes validation and simply matches
nothing. -/
theorem complete_task_errors (r : RawTaskCompletionUpdate) (u : TaskCompletionUpdate)
    (now : String) (store : List WeekSchedule) :
    (validate_update r = none ↔
      parsePerson r.person = none ∨ parseArea r.area = none ∨
        parseTaskType r.task_type = none) ∧
    ((complete_task u now store).1 = false ↔
      ∀ s ∈ store, schedule_matches u s = false) ∧
    ((complete_task u now store).1 = false →
      (complete_task u now store).2 = store) := by
  refine ⟨?_, (complete_task_no_match u now store).1, (complete_task_no_match u now store).2⟩
  unfold validate_update
  cases parsePerson r.person <;> cases parseArea r.area <;>
    cases parseTaskType r.task_type <;> simp

/-- C8 counterexample: a request whose `week_start` is not a valid date
string but whose enum fields are valid passes field validation — no 422
is raised — because `TaskCompletionUpdate.week_start` is typed as a
plain `str` in the source, contradicting the claim that an invalid
`week_start` date yields a field-validation error. -/
theorem complete_task_errors_counterexample :
    validate_update ⟨"not-a-date", "joan", "cocina", "limpieza_principal", true⟩
      = some ⟨"not-a-date", PersonType.joan, AreaType.cocina,
          TaskType.limpieza_principal, true⟩ :=
  rfl

theorem complete_task_errors_witness :
    validate_update ⟨"2026-06-22", "nobody", "cocina", "limpieza_bano", true⟩ = none ∧
    (complete_task ⟨"1999-01-04", PersonType.joan, AreaType.cocina,
        TaskType.limpieza_principal, true⟩ "t"
        (generate_all_schedules (ymd2ord 2026 6 15))).2
      = generate_all_schedules (ymd2ord 2026 6 15) :=
  ⟨(complete_task_errors ⟨"2026-06-22", "nobody", "cocina", "limpieza_bano", true⟩
      ⟨"1999-01-04", PersonType.joan, AreaType.cocina, TaskType.limpieza_principal, true⟩
      "t" (generate_all_schedules (ymd2ord 2026 6 15))).1.mpr (Or.inl rfl),
   (complete_task_errors ⟨"2026-06-22", "nobody", "cocina", "limpieza_bano", true⟩
      ⟨"1999-01-04", PersonType.joan, AreaType.cocina, TaskType.limpieza_principal, true⟩
      "t" (generate_all_schedules (ymd2ord 2026 6 15))).2.2 (by decide)⟩

/-- C9: `current-week` returns `none` (404) iff the store is empty; when
a schedule whose `week_start` is this week's Monday exists it returns
one such schedule; otherwise it returns a stored schedule whose
`week_start` is least in the whole collection. -/
theorem get_current_week_spec (today : Nat) (store : List WeekSchedule) :
    (get_current_week today store = none ↔ store = []) ∧
    ((∃ s ∈ store, s.week_start = isoformat (get_monday_of_week today)) →
      ∃ r, get_current_week today store = some r ∧ r ∈ store ∧
        r.week_start = isoformat (get_monday_of_week today)) ∧
    ((∀ s ∈ store, s.week_start ≠ isoformat (get_monday_of_week today)) →
      ∀ r, get_current_week today store = some r →
        r ∈ store ∧ ∀ s ∈ store, r.week_start ≤ s.week_start) := by
  refine ⟨?_, ?_, ?_⟩
  · cases hf : store.find? (fun s => s.week_start == isoformat (get_monday_of_week today)) with
    | some s =>
      have hmem := List.mem_of_find?_eq_some hf
      simp only [get_current_week, hf]
      constructor
      · intro h; simp at h
      · rintro rfl; simp at hmem
    | none =>
      simp only [get_current_week, hf]
      exact (find_earliest_spec store).1
  · rintro ⟨s, hs, hws⟩
    cases hf : store.find? (fun x => x.week_start == isoformat (get_monday_of_week today)) with
    | some r =>
      have hmem := List.mem_of_find?_eq_some hf
      have hp := List.find?_some hf
      simp only [get_current_week, hf]
      exact ⟨r, rfl, hmem, by simpa using hp⟩
    | none =>
      have := List.find?_eq_none.mp hf s hs
      simp [hws] at this
  · intro hnone r hr
    have hf : store.find?
        (fun x => x.week_start == isoformat (get_monday_of_week today)) = none := by
      apply List.find?_eq_none.mpr
      intro x hx
      simpa using hnone x hx
    simp only [get_current_week, hf] at hr
    exact (find_earliest_spec store).2 r hr

theorem get_current_week_spec_witness :
    get_current_week (ymd2ord 2026 6 24) [] = none ∧
    (∃ s ∈ generate_all_schedules (ymd2ord 2026 6 15),
        s.week_start = isoformat (get_monday_of_week (ymd2ord 2026 6 24))) ∧
    ∃ r, get_current_week (ymd2ord 2026 6 24)
          (generate_all_schedules (ymd2ord 2026 6 15)) = some r ∧
      r ∈ generate_all_schedules (ymd2ord 2026 6 15) ∧
      r.week_start = isoformat (get_monday_of_week (ymd2ord 2026 6 24)) :=
  ⟨(get_current_week_spec (ymd2ord 2026 6 24) []).1.mpr rfl, by decide,
   (get_current_week_spec (ymd2ord 2026 6 24)
      (generate_all_schedules (ymd2ord 2026 6 15))).2.1 (by decide)⟩

end Piso
